import Mathlib

/-!
Verification development for the `ai-agents-portfolio` repository.

The development shallowly embeds the two core components of the repository:

* the SQL sanitization gate of `services/datascribe/app.py`
  (`_sanitize_sql` and the fenced-block candidate selection plus the
  SELECT/denylist guards of the `query` endpoint), modelled over `List Char`
  so that every Python string operation (`strip`, `lower`, `split`,
  the three anchored regular expressions, substring tests) is an explicit
  executable function, and

* the completion gateway of `common/llm_utils.py` (`complete` with its
  tenacity retry loop, the offline mock short-circuit, the lazily cached
  client, `with_options`, and the message assembly of `_do_request`),
  modelled as a pure state-passing function whose provider is a stub
  mapping the attempt index to that attempt's outcome.
-/

/-! ## Character helpers -/

/-- Whitespace recognized by Python `str.strip()` for the ASCII range:
space, tab, newline, carriage return, vertical tab, form feed. -/
def pyIsSpace (c : Char) : Bool :=
  c = ' ' || c = '\t' || c = '\n' || c = '\r' || c = Char.ofNat 11 || c = Char.ofNat 12

/-- Word character for Python's `\b` boundary on ASCII text: letters, digits, underscore. -/
def isWordChar (c : Char) : Bool :=
  c.isAlphanum || c = '_'

/-- Python `str.lower()` restricted to the ASCII range handled by the gate:
each uppercase ASCII letter maps to its lowercase form, every other
character is unchanged. -/
def pyToLower (c : Char) : Char :=
  if c = 'A' then 'a' else if c = 'B' then 'b' else if c = 'C' then 'c'
  else if c = 'D' then 'd' else if c = 'E' then 'e' else if c = 'F' then 'f'
  else if c = 'G' then 'g' else if c = 'H' then 'h' else if c = 'I' then 'i'
  else if c = 'J' then 'j' else if c = 'K' then 'k' else if c = 'L' then 'l'
  else if c = 'M' then 'm' else if c = 'N' then 'n' else if c = 'O' then 'o'
  else if c = 'P' then 'p' else if c = 'Q' then 'q' else if c = 'R' then 'r'
  else if c = 'S' then 's' else if c = 'T' then 't' else if c = 'U' then 'u'
  else if c = 'V' then 'v' else if c = 'W' then 'w' else if c = 'X' then 'x'
  else if c = 'Y' then 'y' else if c = 'Z' then 'z' else c

/-- The backtick character, written by code point to keep literals simple. -/
def btick : Char := Char.ofNat 96

/-- The three-backtick fence delimiter sequence. -/
def ticks : List Char := [btick, btick, btick]

/-- The characters of the keyword `select`. -/
def selectChars : List Char := ['s', 'e', 'l', 'e', 'c', 't']

/-- The characters of the label keyword `sql`. -/
def sqlChars : List Char := ['s', 'q', 'l']

/-! ## Python string primitives on `List Char` -/

/-- Python `str.lstrip()`. -/
def pyLStrip (l : List Char) : List Char := l.dropWhile pyIsSpace

/-- Python `str.rstrip()`. -/
def pyRStrip (l : List Char) : List Char := (l.reverse.dropWhile pyIsSpace).reverse

/-- Python `str.strip()`. -/
def pyStrip (l : List Char) : List Char := pyRStrip (pyLStrip l)

/-- Python's `pat in l` substring test. -/
def containsSeq (pat : List Char) : List Char → Bool
  | [] => pat.isEmpty
  | c :: rest => pat.isPrefixOf (c :: rest) || containsSeq pat rest

/-- Leftmost occurrence of `sep` in `l`: `some (pre, post)` splits `l` as
`pre ++ sep ++ post` at the first occurrence, `none` when `sep` does not occur
(for nonempty `sep`). -/
def splitFirst (sep : List Char) : List Char → Option (List Char × List Char)
  | [] => none
  | c :: rest =>
    if sep.isPrefixOf (c :: rest) then some ([], (c :: rest).drop sep.length)
    else
      match splitFirst sep rest with
      | some (pre, post) => some (c :: pre, post)
      | none => none

/-- Fueled worker for `pySplit`; the fuel only needs to exceed the input length. -/
def splitSeqFuel (sep : List Char) : Nat → List Char → List (List Char)
  | 0, l => [l]
  | Nat.succ fuel, l =>
    match splitFirst sep l with
    | none => [l]
    | some (pre, post) => pre :: splitSeqFuel sep fuel post

/-- Python `str.split(sep)` for a nonempty separator. -/
def pySplit (sep l : List Char) : List (List Char) :=
  splitSeqFuel sep (l.length + 1) l

/-! ## The sanitization gate (`services/datascribe/app.py`) -/

/-- Effect of `re.sub(r"^```(?:sql)?\s*", "", s, flags=re.IGNORECASE)` on a
string known to start with the three-backtick fence: drop the fence, then a
case-insensitive `sql` tag when present, then any whitespace run. -/
def stripFenceHead (s : List Char) : List Char :=
  let s1 := s.drop 3
  let s2 := if (s1.take 3).map pyToLower = sqlChars then s1.drop 3 else s1
  s2.dropWhile pyIsSpace

/-- Whether `s` ends with the three-backtick fence. -/
def endsWithTicks (s : List Char) : Bool :=
  s.reverse.take 3 = ticks

/-- Effect of `re.sub(r"\s*```$", "", s)` on a string with no trailing
whitespace (which is the state of `s` at this point of `_sanitize_sql`):
when the string ends with the fence, remove it together with the whitespace
run immediately before it. -/
def stripFenceTail (s : List Char) : List Char :=
  if endsWithTicks s then pyRStrip (s.take (s.length - 3)) else s

/-- Effect of `re.sub(r"^\s*SQL\s*:\s*", "", s, flags=re.IGNORECASE)`:
remove a leading case-insensitive `SQL :` label (with optional whitespace)
when the whole pattern matches, otherwise leave the string unchanged. -/
def stripLabel (s : List Char) : List Char :=
  let s1 := s.dropWhile pyIsSpace
  if (s1.take 3).map pyToLower = sqlChars then
    match (s1.drop 3).dropWhile pyIsSpace with
    | c :: rest => if c = ':' then rest.dropWhile pyIsSpace else s
    | [] => s
  else s

/-- Effect of `if ";" in s: s = s.split(";", 1)[0].strip()`. -/
def semiCut (s : List Char) : List Char :=
  if s.contains ';' then pyStrip (s.takeWhile (fun c => c != ';')) else s

/-- `_sanitize_sql` of `services/datascribe/app.py` (lines 77-93):
strip, remove a wrapping fence with optional `sql` tag, remove a leading
`SQL:` label, and keep only the text before the first `;`. -/
def _sanitize_sql (raw : List Char) : List Char :=
  let s0 := pyStrip raw
  let s1 := if ticks.isPrefixOf s0 then stripFenceTail (stripFenceHead s0) else s0
  let s2 := pyStrip (stripLabel s1)
  semiCut s2

/-- The fenced-block candidate selection of the `query` endpoint
(`app.py` lines 132-137): when the text contains a fence, keep the first
segment of the three-backtick split whose lowercased text contains
`select`, stripped; otherwise keep the text unchanged. -/
def fenceSelect (s : List Char) : List Char :=
  if containsSeq ticks s then
    match (pySplit ticks s).filter (fun p => containsSeq selectChars (p.map pyToLower)) with
    | [] => s
    | c :: _ => pyStrip c
  else s

/-- The full cleaning pipeline the `query` endpoint applies to the model
output before the guard checks (lines 129-138): strip, fenced-block
candidate selection, then `_sanitize_sql`. -/
def sanitizePipeline (raw : List Char) : List Char :=
  _sanitize_sql (fenceSelect (pyStrip raw))

/-- `re.match(r"^\s*select\b", lowered)` of the guard (line 142): after
leading whitespace the lowercased text starts with `select` followed by a
word boundary. -/
def matchesSelect (s : List Char) : Bool :=
  selectChars.isPrefixOf ((s.map pyToLower).dropWhile pyIsSpace) &&
    (match ((s.map pyToLower).dropWhile pyIsSpace).drop 6 with
     | [] => true
     | c :: _ => !isWordChar c)

/-- The denylist of the guard (line 153), in order. -/
def denyWords : List (List Char) :=
  ["insert".toList, "update".toList, "delete".toList, "drop".toList,
   "create".toList, "alter".toList, "truncate".toList]

/-- `any(word in lowered for word in [...])` of the guard (line 153):
plain substring containment on the lowercased text. -/
def denyHit (s : List Char) : Bool :=
  denyWords.any (fun w => containsSeq w (s.map pyToLower))

/-- Outcome of the guard checks of the `query` endpoint: the 400
`Only SELECT queries are allowed.` rejection, the 400
`Refusing non-SELECT SQL for safety.` rejection, or acceptance
(the statement is forwarded to execution). -/
inductive GuardDecision where
  | notSelect
  | denylisted
  | accepted
deriving DecidableEq, Repr

/-- The guard checks of the `query` endpoint (lines 140-161), in source
order: reject when the cleaned text does not start with `select`, then
reject on a denylist hit, otherwise accept. -/
def guardDecision (s : List Char) : GuardDecision :=
  if matchesSelect s = false then GuardDecision.notSelect
  else if denyHit s then GuardDecision.denylisted
  else GuardDecision.accepted

/-- Decision of the `query` endpoint on a raw model output string:
clean it with the pipeline, then apply the guards. -/
def queryGuard (raw : String) : GuardDecision :=
  guardDecision (sanitizePipeline raw.toList)

/-- The system prompt `SQL_SYS` of `services/datascribe/app.py`. -/
def SQL_SYS : String :=
  "Translate natural-language questions to valid SQLite SQL.\nRules:\n- Use table: sales(day TEXT, sku TEXT, qty INT, price REAL)\n- Return a single SELECT query only (no semicolons, no DDL/DML).\n- Prefer readable column aliases.\n"

/-- The user prompt the `query` endpoint builds from the question (line 117). -/
def queryUserPrompt (question : String) : String :=
  "Question:\n" ++ question ++ "\nReturn only SQL:"

/-! ## The completion gateway (`common/llm_utils.py`) -/

/-- The provider exception classes named by `llm_utils`; the first four are
the tuple returned by `_retryable_exceptions`, the last is the one its
comment singles out as not retryable. -/
inductive OpenAIExc where
  | APIConnectionError
  | APITimeoutError
  | RateLimitError
  | APIError
  | AuthenticationError
deriving DecidableEq, Repr

/-- `_retryable_exceptions` (lines 104-111): the tuple of exception classes
considered transient. `AuthenticationError` is not in it. -/
def _retryable_exceptions : List OpenAIExc :=
  [OpenAIExc.APIConnectionError, OpenAIExc.APITimeoutError,
   OpenAIExc.RateLimitError, OpenAIExc.APIError]

/-- Whether tenacity's `retry_if_exception_type(_retryable_exceptions())`
retries on exception `e`. -/
def retryable (e : OpenAIExc) : Bool :=
  _retryable_exceptions.contains e

/-- The provider client handle built by `_get_client`: the constructor call
`OpenAI(api_key=api_key, base_url=BASE_URL)` sets no explicit timeout, so the
cached handle keeps the library default, recorded as `none`. -/
structure OpenAIClient where
  api_key : String
  base_url : Option String
  timeout : Option ℚ
deriving DecidableEq, Repr

/-- `client.with_options(timeout=timeout_s)` (line 174): derive a
request-scoped copy of the handle carrying the per-call timeout; the
original handle is not changed (the source comment: `Bind timeout per
request without mutating the global client`). -/
def with_options (c : OpenAIClient) (timeout_s : ℚ) : OpenAIClient :=
  { c with timeout := some timeout_s }

/-- The module-level mutable cache `_client` of `llm_utils` (line 48). -/
structure GatewayState where
  _client : Option OpenAIClient
deriving DecidableEq, Repr

/-- The environment-derived module configuration of `llm_utils`
(lines 40-45), read once at import. -/
structure Config where
  USE_MOCK : Bool
  OPENAI_API_KEY : Option String
  BASE_URL : Option String
deriving DecidableEq, Repr

/-- A role-tagged chat message. -/
structure ChatMessage where
  role : String
  content : String
deriving DecidableEq, Repr

/-- The message assembly of `_do_request` (lines 185-190): start empty,
append the system message when the system prompt is truthy (neither absent
nor empty), extend with the extra messages when truthy, and append the user
message last. -/
def buildMessages (system_prompt : Option String)
    (extra_messages : Option (List ChatMessage)) (user_prompt : String) :
    List ChatMessage :=
  let ms : List ChatMessage := []
  let ms := match system_prompt with
    | some s => if s = "" then ms else ms ++ [ChatMessage.mk "system" s]
    | none => ms
  let ms := match extra_messages with
    | some es => if es = [] then ms else ms ++ es
    | none => ms
  ms ++ [ChatMessage.mk "user" user_prompt]

/-- `_MOCK_TS_SNIPPET` (lines 118-126), the fixed deterministic mock payload. -/
def _MOCK_TS_SNIPPET : String :=
  "import \x7b test, expect \x7d from '@playwright/test';\n\ntest.describe('generated suite', () => \x7b\n  test('generated', async (\x7b page \x7d) => \x7b\n    await page.goto('https://example.com');\n    await expect(page).toHaveTitle(/Example/);\n  \x7d);\n\x7d);\n"

/-- The error message of `_get_client` when no credential is configured. -/
def apiKeyErrorMsg : String :=
  "OPENAI_API_KEY is not set. Put it in .env or set the env var."

/-- The tenacity retry loop of `complete` (lines 178-183):
`stop_after_attempt(max_retries + 1)`, `retry_if_exception_type` on the
transient tuple, `reraise=True`. `stub i` is the outcome of attempt number
`i + 1`; the second argument is the attempt index, the third the number of
attempts still allowed. Returns the final outcome together with the number
of attempts actually made: an attempt that succeeds or raises a
non-retryable exception ends the loop at once, a retryable exception is
retried while budget remains, and once the budget is spent the last
exception is re-raised unchanged. -/
def retryRun (stub : Nat → Except OpenAIExc String) :
    Nat → Nat → Except OpenAIExc String × Nat
  | i, Nat.succ (Nat.succ b) =>
    match stub i with
    | Except.ok v => (Except.ok v, 1)
    | Except.error e =>
      if retryable e then
        let r := retryRun stub (i + 1) (Nat.succ b)
        (r.1, r.2 + 1)
      else (Except.error e, 1)
  | i, _ => (stub i, 1)

/-- Failure of a `complete` call: the `RuntimeError` raised for a missing
credential, or the provider exception escaping the retry loop. -/
inductive CompleteError where
  | runtimeError (msg : String)
  | providerError (e : OpenAIExc)
deriving DecidableEq, Repr

instance {ε α : Type} [DecidableEq ε] [DecidableEq α] : DecidableEq (Except ε α) := fun x y =>
  match x, y with
  | Except.ok a, Except.ok b =>
    if h : a = b then isTrue (by rw [h]) else isFalse (by intro hh; cases hh; exact h rfl)
  | Except.error a, Except.error b =>
    if h : a = b then isTrue (by rw [h]) else isFalse (by intro hh; cases hh; exact h rfl)
  | Except.ok _, Except.error _ => isFalse (by intro hh; cases hh)
  | Except.error _, Except.ok _ => isFalse (by intro hh; cases hh)

/-- Observable outcome of one `complete` call: the returned text or raised
error, the module cache afterwards, how many provider requests were made,
whether a new client handle was constructed, and the request-scoped handle
and message list used for the provider requests (absent when no request was
attempted). -/
structure CompleteResult where
  result : Except CompleteError String
  finalState : GatewayState
  attempts : Nat
  constructedClient : Bool
  requestClient : Option OpenAIClient
  requestMessages : List ChatMessage
deriving DecidableEq, Repr

/-- `complete` (lines 133-200). In mock mode it returns `_MOCK_TS_SNIPPET`
immediately: no client is consulted or constructed, no request happens, the
cache is untouched. Otherwise `_get_client` is inlined: a cached handle is
reused, else one is built from the credential (raising `RuntimeError` when
absent) and cached. The per-call timeout is bound through `with_options`
into a request-scoped copy, and the request runs under the tenacity retry
loop with the messages assembled by `_do_request`. The provider itself is
the stub `stub`, mapping each attempt index to that attempt's outcome. -/
def complete (cfg : Config) (st : GatewayState) (user_prompt : String)
    (system_prompt : Option String) (timeout_s : ℚ) (max_retries : Nat)
    (extra_messages : Option (List ChatMessage))
    (stub : Nat → Except OpenAIExc String) : CompleteResult :=
  if cfg.USE_MOCK then
    { result := Except.ok _MOCK_TS_SNIPPET, finalState := st, attempts := 0,
      constructedClient := false, requestClient := none, requestMessages := [] }
  else
    match st._client with
    | some c =>
      let client_req := with_options c timeout_s
      let r := retryRun stub 0 (max_retries + 1)
      { result := (match r.1 with
          | Except.ok v => Except.ok v
          | Except.error e => Except.error (CompleteError.providerError e)),
        finalState := st, attempts := r.2, constructedClient := false,
        requestClient := some client_req,
        requestMessages := buildMessages system_prompt extra_messages user_prompt }
    | none =>
      match cfg.OPENAI_API_KEY with
      | none =>
        { result := Except.error (CompleteError.runtimeError apiKeyErrorMsg),
          finalState := st, attempts := 0, constructedClient := false,
          requestClient := none, requestMessages := [] }
      | some k =>
        let c : OpenAIClient := { api_key := k, base_url := cfg.BASE_URL, timeout := none }
        let client_req := with_options c timeout_s
        let r := retryRun stub 0 (max_retries + 1)
        { result := (match r.1 with
            | Except.ok v => Except.ok v
            | Except.error e => Except.error (CompleteError.providerError e)),
          finalState := { _client := some c }, attempts := r.2,
          constructedClient := true, requestClient := some client_req,
          requestMessages := buildMessages system_prompt extra_messages user_prompt }

/-! ## Lemmas about the string primitives -/

theorem dropWhile_idem (p : Char → Bool) (l : List Char) :
    (l.dropWhile p).dropWhile p = l.dropWhile p := by
  induction l with
  | nil => rfl
  | cons c t ih =>
    by_cases h : p c
    · simp [List.dropWhile_cons, h, ih]
    · simp [List.dropWhile_cons, h]

theorem pyLStrip_idem (l : List Char) : pyLStrip (pyLStrip l) = pyLStrip l :=
  dropWhile_idem pyIsSpace l

theorem pyRStrip_idem (l : List Char) : pyRStrip (pyRStrip l) = pyRStrip l := by
  unfold pyRStrip
  rw [List.reverse_reverse, dropWhile_idem]

theorem dropWhile_append_single (p : Char → Bool) (a : List Char) (c : Char)
    (h : p c = false) : (a ++ [c]).dropWhile p = a.dropWhile p ++ [c] := by
  induction a with
  | nil => simp [List.dropWhile_cons, h]
  | cons d t ih =>
    by_cases hd : p d
    · simp [List.dropWhile_cons, hd, ih]
    · simp [List.dropWhile_cons, hd]

theorem pyRStrip_cons (c : Char) (t : List Char) (h : pyIsSpace c = false) :
    pyRStrip (c :: t) = c :: pyRStrip t := by
  unfold pyRStrip
  rw [List.reverse_cons, dropWhile_append_single pyIsSpace t.reverse c h]
  simp

theorem lstrip_head_not_space (c : Char) (t : List Char)
    (h : pyLStrip (c :: t) = c :: t) : pyIsSpace c = false := by
  by_contra hcc
  rw [Bool.not_eq_false] at hcc
  unfold pyLStrip at h
  rw [List.dropWhile_cons, if_pos hcc] at h
  have hlen := congrArg List.length h
  have hle := (List.dropWhile_suffix (l := t) pyIsSpace).sublist.length_le
  simp at hlen
  omega

theorem lstrip_rstrip (m : List Char) (h : pyLStrip m = m) :
    pyLStrip (pyRStrip m) = pyRStrip m := by
  cases m with
  | nil => rfl
  | cons c t =>
    have hc := lstrip_head_not_space c t h
    rw [pyRStrip_cons c t hc]
    unfold pyLStrip
    rw [List.dropWhile_cons, if_neg (by simp [hc])]

theorem pyStrip_idem (l : List Char) : pyStrip (pyStrip l) = pyStrip l := by
  unfold pyStrip
  rw [lstrip_rstrip (pyLStrip l) (pyLStrip_idem l), pyRStrip_idem]

theorem pyLStrip_suffix (l : List Char) : pyLStrip l <:+ l :=
  List.dropWhile_suffix pyIsSpace

theorem pyRStrip_pre (l : List Char) : pyRStrip l <+: l := by
  have h : (pyRStrip l).reverse <:+ l.reverse := by
    unfold pyRStrip
    rw [List.reverse_reverse]
    exact List.dropWhile_suffix pyIsSpace
  exact List.reverse_suffix.mp h

theorem pyStrip_sub (l : List Char) : pyStrip l <:+: l :=
  (pyRStrip_pre (pyLStrip l)).isInfix.trans (pyLStrip_suffix l).isInfix

theorem lstrip_of_strip {l : List Char} (h : pyStrip l = l) : pyLStrip l = l := by
  have h1 : pyLStrip l <:+ l := pyLStrip_suffix l
  have h2 : (pyStrip l).length ≤ (pyLStrip l).length := by
    unfold pyStrip pyRStrip
    have := (List.dropWhile_suffix (l := (pyLStrip l).reverse) pyIsSpace).sublist.length_le
    simpa using this
  rw [h] at h2
  exact h1.eq_of_length (Nat.le_antisymm h1.sublist.length_le h2)


theorem stripFenceHead_suffix (s : List Char) : stripFenceHead s <:+ s := by
  show ((if ((s.drop 3).take 3).map pyToLower = sqlChars then
      (s.drop 3).drop 3 else s.drop 3).dropWhile pyIsSpace) <:+ s
  have h1 : s.drop 3 <:+ s := List.drop_suffix 3 s
  by_cases h : ((s.drop 3).take 3).map pyToLower = sqlChars
  · rw [if_pos h]
    exact (List.dropWhile_suffix pyIsSpace).trans ((List.drop_suffix 3 (s.drop 3)).trans h1)
  · rw [if_neg h]
    exact (List.dropWhile_suffix pyIsSpace).trans h1

theorem stripFenceTail_pre (s : List Char) : stripFenceTail s <+: s := by
  unfold stripFenceTail
  by_cases h : endsWithTicks s = true
  · rw [if_pos h]
    exact (pyRStrip_pre _).trans (List.take_prefix _ s)
  · rw [if_neg h]

theorem stripLabel_suffix (s : List Char) : stripLabel s <:+ s := by
  show (if ((s.dropWhile pyIsSpace).take 3).map pyToLower = sqlChars then
      (match ((s.dropWhile pyIsSpace).drop 3).dropWhile pyIsSpace with
       | c :: rest => if c = ':' then rest.dropWhile pyIsSpace else s
       | [] => s)
    else s) <:+ s
  by_cases h : ((s.dropWhile pyIsSpace).take 3).map pyToLower = sqlChars
  · rw [if_pos h]
    cases hm : ((s.dropWhile pyIsSpace).drop 3).dropWhile pyIsSpace with
    | nil => exact List.suffix_rfl
    | cons c rest =>
      show (if c = ':' then rest.dropWhile pyIsSpace else s) <:+ s
      by_cases hc : c = ':'
      · rw [if_pos hc]
        have h1 : rest.dropWhile pyIsSpace <:+ rest := List.dropWhile_suffix pyIsSpace
        have h2 : rest <:+ c :: rest := List.suffix_cons c rest
        have h3 : (c :: rest) <:+ (s.dropWhile pyIsSpace).drop 3 := by
          rw [← hm]; exact List.dropWhile_suffix pyIsSpace
        have h4 : (s.dropWhile pyIsSpace).drop 3 <:+ s.dropWhile pyIsSpace :=
          List.drop_suffix 3 _
        have h5 : s.dropWhile pyIsSpace <:+ s := List.dropWhile_suffix pyIsSpace
        exact h1.trans (h2.trans (h3.trans (h4.trans h5)))
      · rw [if_neg hc]
  · rw [if_neg h]

theorem semiCut_sub (s : List Char) : semiCut s <:+: s := by
  unfold semiCut
  by_cases h : s.contains ';' = true
  · rw [if_pos h]
    exact (pyStrip_sub _).trans (List.takeWhile_prefix _).isInfix
  · rw [if_neg h]

theorem san_eq (raw : List Char) :
    _sanitize_sql raw =
      semiCut (pyStrip (stripLabel
        (if ticks.isPrefixOf (pyStrip raw) then
          stripFenceTail (stripFenceHead (pyStrip raw)) else pyStrip raw))) := rfl

theorem san_sub (raw : List Char) : _sanitize_sql raw <:+: raw := by
  rw [san_eq]
  have hbase : (if ticks.isPrefixOf (pyStrip raw) then
      stripFenceTail (stripFenceHead (pyStrip raw)) else pyStrip raw) <:+: raw := by
    by_cases h : ticks.isPrefixOf (pyStrip raw) = true
    · rw [if_pos h]
      exact ((stripFenceTail_pre _).isInfix.trans
        (stripFenceHead_suffix _).isInfix).trans (pyStrip_sub raw)
    · rw [if_neg h]
      exact pyStrip_sub raw
  exact (semiCut_sub _).trans ((pyStrip_sub _).trans
    ((stripLabel_suffix _).isInfix.trans hbase))

theorem san_stripped (raw : List Char) :
    pyStrip (_sanitize_sql raw) = _sanitize_sql raw := by
  rw [san_eq]
  unfold semiCut
  by_cases h : (pyStrip (stripLabel
      (if ticks.isPrefixOf (pyStrip raw) then
        stripFenceTail (stripFenceHead (pyStrip raw)) else pyStrip raw))).contains ';' = true
  · rw [if_pos h]
    exact pyStrip_idem _
  · rw [if_neg h]
    exact pyStrip_idem _

theorem not_mem_semiCut (s : List Char) : ';' ∉ semiCut s := by
  unfold semiCut
  by_cases h : s.contains ';' = true
  · rw [if_pos h]
    intro hm
    have h1 : ';' ∈ s.takeWhile (fun c => c != ';') := (pyStrip_sub _).subset hm
    have h2 := List.mem_takeWhile_imp h1
    simp at h2
  · rw [if_neg h]
    intro hm
    exact h (List.elem_iff.mpr hm)

theorem san_no_semi (raw : List Char) : ';' ∉ _sanitize_sql raw := by
  rw [san_eq]
  exact not_mem_semiCut _

theorem containsSeq_iff (pat l : List Char) : containsSeq pat l = true ↔ pat <:+: l := by
  induction l with
  | nil =>
    show pat.isEmpty = true ↔ pat <:+: []
    rw [List.isEmpty_iff, List.infix_nil]
  | cons c t ih =>
    show (pat.isPrefixOf (c :: t) || containsSeq pat t) = true ↔ pat <:+: c :: t
    rw [Bool.or_eq_true, List.infix_cons_iff, ih, List.isPrefixOf_iff_prefix]

theorem splitFirst_append (sep : List Char) :
    ∀ (l pre post : List Char), splitFirst sep l = some (pre, post) →
      l = pre ++ sep ++ post := by
  intro l
  induction l with
  | nil => intro pre post h; simp [splitFirst] at h
  | cons c rest ih =>
    intro pre post h
    rw [splitFirst] at h
    by_cases hp : sep.isPrefixOf (c :: rest)
    · rw [if_pos hp] at h
      injection h with h
      injection h with h1 h2
      subst h1; subst h2
      have := List.prefix_iff_eq_append.mp (List.isPrefixOf_iff_prefix.mp hp)
      simpa using this.symm
    · rw [if_neg hp] at h
      cases hrec : splitFirst sep rest with
      | none => rw [hrec] at h; cases h
      | some pp =>
        rw [hrec] at h
        obtain ⟨pre2, post2⟩ := pp
        injection h with h
        injection h with h1 h2
        subst h1; subst h2
        have hr := ih pre2 post2 hrec
        rw [hr]
        simp

theorem splitFirst_pre_no_sep (sep : List Char) (hsep : sep ≠ []) :
    ∀ (l pre post : List Char), splitFirst sep l = some (pre, post) →
      ¬ sep <:+: pre := by
  intro l
  induction l with
  | nil => intro pre post h; simp [splitFirst] at h
  | cons c rest ih =>
    intro pre post h
    rw [splitFirst] at h
    by_cases hp : sep.isPrefixOf (c :: rest)
    · rw [if_pos hp] at h
      injection h with h
      injection h with h1 h2
      subst h1
      intro hin
      exact hsep (List.infix_nil.mp hin)
    · rw [if_neg hp] at h
      cases hrec : splitFirst sep rest with
      | none => rw [hrec] at h; cases h
      | some pp =>
        rw [hrec] at h
        obtain ⟨pre2, post2⟩ := pp
        injection h with h
        injection h with h1 h2
        subst h1; subst h2
        intro hin
        rw [List.infix_cons_iff] at hin
        cases hin with
        | inl hpre =>
          have hr := splitFirst_append sep rest pre2 post2 hrec
          have hcp : (c :: pre2) <+: (c :: rest) := by
            rw [hr]
            exact ⟨sep ++ post2, by simp⟩
          exact hp (List.isPrefixOf_iff_prefix.mpr (hpre.trans hcp))
        | inr hin => exact ih pre2 post2 hrec hin

theorem splitFirst_none_no_sep (sep : List Char) (hsep : sep ≠ []) :
    ∀ l : List Char, splitFirst sep l = none → ¬ sep <:+: l := by
  intro l
  induction l with
  | nil =>
    intro _ hin
    exact hsep (List.infix_nil.mp hin)
  | cons c rest ih =>
    intro h hin
    rw [splitFirst] at h
    by_cases hp : sep.isPrefixOf (c :: rest)
    · rw [if_pos hp] at h; cases h
    · rw [if_neg hp] at h
      cases hrec : splitFirst sep rest with
      | some pp => rw [hrec] at h; cases h
      | none =>
        rw [List.infix_cons_iff] at hin
        cases hin with
        | inl hpre => exact hp (List.isPrefixOf_iff_prefix.mpr hpre)
        | inr hin => exact ih hrec hin

theorem splitSeqFuel_no_sep (sep : List Char) (hsep : sep ≠ []) :
    ∀ (fuel : Nat) (l : List Char), l.length < fuel →
      ∀ p ∈ splitSeqFuel sep fuel l, ¬ sep <:+: p := by
  intro fuel
  induction fuel with
  | zero => intro l hl; omega
  | succ f ih =>
    intro l hl p hp
    rw [splitSeqFuel] at hp
    cases hsf : splitFirst sep l with
    | none =>
      rw [hsf] at hp
      rw [List.mem_singleton] at hp
      rw [hp]
      exact splitFirst_none_no_sep sep hsep l hsf
    | some pp =>
      obtain ⟨pre, post⟩ := pp
      rw [hsf] at hp
      rw [List.mem_cons] at hp
      cases hp with
      | inl h => subst h; exact splitFirst_pre_no_sep sep hsep l p post hsf
      | inr h =>
        have hdec := splitFirst_append sep l pre post hsf
        have hslen : 1 ≤ sep.length := List.length_pos.mpr hsep
        have hplen : post.length < f := by
          have := congrArg List.length hdec
          simp at this
          omega
        exact ih post hplen p h

theorem pySplit_no_ticks (l p : List Char) (hp : p ∈ pySplit ticks l) :
    ¬ ticks <:+: p :=
  splitSeqFuel_no_sep ticks (by simp [ticks]) (l.length + 1) l (by omega) p hp

theorem prefix_append_cases {α : Type} {w : List α} (a b : List α) (h : w <+: a ++ b) :
    w <+: a ∨ ∃ v, w = a ++ v ∧ v <+: b := by
  induction a generalizing w with
  | nil =>
    right
    exact ⟨w, by simp, by simpa using h⟩
  | cons c a2 ih =>
    rw [List.cons_append] at h
    rcases List.prefix_cons_iff.mp h with h0 | ⟨t, rfl, ht⟩
    · subst h0
      left
      exact List.nil_prefix
    · rcases ih ht with h1 | ⟨v, rfl, hv⟩
      · left
        exact List.cons_prefix_cons.mpr ⟨rfl, h1⟩
      · right
        exact ⟨v, by simp, hv⟩

theorem infix_append_cases {α : Type} {w : List α} (a b : List α) (h : w <:+: a ++ b) :
    w <:+: a ∨ w <:+: b ∨
      ∃ w1 w2, w = w1 ++ w2 ∧ w1 ≠ [] ∧ w2 ≠ [] ∧ w1 <:+ a ∧ w2 <+: b := by
  induction a generalizing w with
  | nil =>
    right; left
    simpa using h
  | cons c a2 ih =>
    rw [List.cons_append] at h
    rcases List.infix_cons_iff.mp h with hpre | hinf
    · rcases List.prefix_cons_iff.mp hpre with h0 | ⟨t, rfl, ht⟩
      · subst h0
        left
        exact List.nil_infix
      · rcases prefix_append_cases a2 b ht with h1 | ⟨v, rfl, hv⟩
        · left
          exact (List.cons_prefix_cons.mpr ⟨rfl, h1⟩).isInfix
        · by_cases hv0 : v = []
          · subst hv0
            left
            have : c :: (a2 ++ []) = c :: a2 := by simp
            rw [this]
          · right; right
            exact ⟨c :: a2, v, by simp, by simp, hv0, List.suffix_rfl, hv⟩
    · rcases ih hinf with h1 | h2 | ⟨w1, w2, rfl, hw1, hw2, hs, hp⟩
      · left
        exact List.infix_cons_iff.mpr (Or.inr h1)
      · right; left
        exact h2
      · right; right
        exact ⟨w1, w2, rfl, hw1, hw2, hs.trans (List.suffix_cons c a2), hp⟩

theorem infix_splitSeqFuel (sep : List Char) (hsep : sep ≠ []) :
    ∀ (fuel : Nat) (l w : List Char), l.length < fuel → w <:+: l → w ≠ [] →
      (∀ c ∈ w, c ∉ sep) → ∃ p ∈ splitSeqFuel sep fuel l, w <:+: p := by
  intro fuel
  induction fuel with
  | zero => intro l w hl; omega
  | succ f ih =>
    intro l w hl hin hne hw
    rw [splitSeqFuel]
    cases hsf : splitFirst sep l with
    | none => exact ⟨l, by simp, hin⟩
    | some pp =>
      obtain ⟨pre, post⟩ := pp
      have hdec := splitFirst_append sep l pre post hsf
      rw [hdec, List.append_assoc] at hin
      rcases infix_append_cases pre (sep ++ post) hin with h1 | h2 | ⟨w1, w2, rfl, hw1, hw2, hs, hp⟩
      · exact ⟨pre, by simp, h1⟩
      · rcases infix_append_cases sep post h2 with h3 | h4 | ⟨w1, w2, rfl, hw1, hw2, hs, hp⟩
        · obtain ⟨c, hc⟩ := List.exists_mem_of_ne_nil w hne
          exact absurd (h3.subset hc) (hw c hc)
        · have hslen : 1 ≤ sep.length := List.length_pos.mpr hsep
          have hplen : post.length < f := by
            have := congrArg List.length hdec
            simp at this
            omega
          obtain ⟨p, hp1, hp2⟩ := ih post w hplen h4 hne hw
          exact ⟨p, List.mem_cons_of_mem pre hp1, hp2⟩
        · obtain ⟨c, hc⟩ := List.exists_mem_of_ne_nil w1 hw1
          exact absurd (hs.subset hc) (hw c (List.mem_append_left w2 hc))
      · obtain ⟨s0, sep2, rfl⟩ := List.exists_cons_of_ne_nil hsep
        obtain ⟨c, w3, rfl⟩ := List.exists_cons_of_ne_nil hw2
        have hchead : c = s0 := by
          rw [List.cons_append] at hp
          exact (List.cons_prefix_cons.mp hp).1
        subst hchead
        have hcw : c ∈ w1 ++ c :: w3 := List.mem_append_right w1 (List.mem_cons_self c w3)
        exact absurd (List.mem_cons_self c sep2) (hw c hcw)

theorem infix_pySplit (l w : List Char) (hin : w <:+: l) (hne : w ≠ [])
    (hw : ∀ c ∈ w, c ≠ btick) : ∃ p ∈ pySplit ticks l, w <:+: p := by
  apply infix_splitSeqFuel ticks (by simp [ticks]) (l.length + 1) l w (by omega) hin hne
  intro c hc hmem
  have : c = btick := by
    simp [ticks] at hmem
    exact hmem
  exact hw c hc this

theorem select_pullback (y : List Char) (h : selectChars <:+: y.map pyToLower) :
    ∃ w, w <:+: y ∧ w.map pyToLower = selectChars := by
  obtain ⟨s, t, hst⟩ := h
  have hy : y.map pyToLower = s ++ (selectChars ++ t) := by
    rw [← hst]
    simp
  obtain ⟨a, bc, hsplit1, hmapa, hmapbc⟩ := List.map_eq_append_iff.mp hy
  obtain ⟨b, c2, hsplit2, hmapb, hmapc⟩ := List.map_eq_append_iff.mp hmapbc
  refine ⟨b, ?_, hmapb⟩
  rw [hsplit1, hsplit2]
  exact ⟨a, c2, by simp⟩

theorem select_no_tick (w : List Char) (h : w.map pyToLower = selectChars) :
    ∀ c ∈ w, c ≠ btick := by
  intro c hc hceq
  have h1 : pyToLower c ∈ selectChars := by
    rw [← h]
    exact List.mem_map_of_mem pyToLower hc
  rw [hceq] at h1
  revert h1
  decide

theorem select_ne_nil (w : List Char) (h : w.map pyToLower = selectChars) : w ≠ [] := by
  intro h0
  rw [h0] at h
  simp [selectChars] at h

theorem space_toLower (c : Char) : pyIsSpace (pyToLower c) = pyIsSpace c := by
  rcases eq_or_ne c 'A' with rfl | hA
  · decide
  rcases eq_or_ne c 'B' with rfl | hB
  · decide
  rcases eq_or_ne c 'C' with rfl | hC
  · decide
  rcases eq_or_ne c 'D' with rfl | hD
  · decide
  rcases eq_or_ne c 'E' with rfl | hE
  · decide
  rcases eq_or_ne c 'F' with rfl | hF
  · decide
  rcases eq_or_ne c 'G' with rfl | hG
  · decide
  rcases eq_or_ne c 'H' with rfl | hH
  · decide
  rcases eq_or_ne c 'I' with rfl | hI
  · decide
  rcases eq_or_ne c 'J' with rfl | hJ
  · decide
  rcases eq_or_ne c 'K' with rfl | hK
  · decide
  rcases eq_or_ne c 'L' with rfl | hL
  · decide
  rcases eq_or_ne c 'M' with rfl | hM
  · decide
  rcases eq_or_ne c 'N' with rfl | hN
  · decide
  rcases eq_or_ne c 'O' with rfl | hO
  · decide
  rcases eq_or_ne c 'P' with rfl | hP
  · decide
  rcases eq_or_ne c 'Q' with rfl | hQ
  · decide
  rcases eq_or_ne c 'R' with rfl | hR
  · decide
  rcases eq_or_ne c 'S' with rfl | hS
  · decide
  rcases eq_or_ne c 'T' with rfl | hT
  · decide
  rcases eq_or_ne c 'U' with rfl | hU
  · decide
  rcases eq_or_ne c 'V' with rfl | hV
  · decide
  rcases eq_or_ne c 'W' with rfl | hW
  · decide
  rcases eq_or_ne c 'X' with rfl | hX
  · decide
  rcases eq_or_ne c 'Y' with rfl | hY
  · decide
  rcases eq_or_ne c 'Z' with rfl | hZ
  · decide
  have hid : pyToLower c = c := by
    unfold pyToLower
    rw [if_neg hA, if_neg hB, if_neg hC, if_neg hD, if_neg hE, if_neg hF, if_neg hG, if_neg hH, if_neg hI, if_neg hJ, if_neg hK, if_neg hL, if_neg hM, if_neg hN, if_neg hO, if_neg hP, if_neg hQ, if_neg hR, if_neg hS, if_neg hT, if_neg hU, if_neg hV, if_neg hW, if_neg hX, if_neg hY, if_neg hZ]
  rw [hid]

theorem dropWhile_lower (y : List Char) :
    (y.map pyToLower).dropWhile pyIsSpace = (y.dropWhile pyIsSpace).map pyToLower := by
  induction y with
  | nil => rfl
  | cons c t ih =>
    rw [List.map_cons, List.dropWhile_cons, List.dropWhile_cons, space_toLower c]
    by_cases h : pyIsSpace c = true
    · rw [if_pos h, if_pos h, ih]
    · rw [if_neg h, if_neg h, List.map_cons]

theorem accepted_matches (y : List Char)
    (h : guardDecision y = GuardDecision.accepted) : matchesSelect y = true := by
  unfold guardDecision at h
  by_cases hm : matchesSelect y = false
  · rw [if_pos hm] at h
    cases h
  · simpa using hm

theorem matches_select_isPre (y : List Char) (h : matchesSelect y = true) :
    selectChars <+: (y.map pyToLower).dropWhile pyIsSpace := by
  unfold matchesSelect at h
  rw [Bool.and_eq_true] at h
  exact List.isPrefixOf_iff_prefix.mp h.1

theorem select_pre_of_matches (y : List Char) (hstr : pyStrip y = y)
    (hm : matchesSelect y = true) : selectChars <+: y.map pyToLower := by
  have hls := lstrip_of_strip hstr
  have ht : (y.map pyToLower).dropWhile pyIsSpace = y.map pyToLower := by
    rw [dropWhile_lower]
    unfold pyLStrip at hls
    rw [hls]
  have h := matches_select_isPre y hm
  rwa [ht] at h

theorem fenceSelect_eq_of_no_ticks (s : List Char) (h : containsSeq ticks s = false) :
    fenceSelect s = s := by
  unfold fenceSelect
  rw [h]
  rfl

theorem pipeline_no_ticks (raw : List Char)
    (hacc : guardDecision (sanitizePipeline raw) = GuardDecision.accepted) :
    ¬ ticks <:+: sanitizePipeline raw := by
  by_cases hct : containsSeq ticks (pyStrip raw) = true
  · cases hfil : (pySplit ticks (pyStrip raw)).filter
        (fun p => containsSeq selectChars (p.map pyToLower)) with
    | nil =>
      have hz : fenceSelect (pyStrip raw) = pyStrip raw := by
        unfold fenceSelect
        rw [hct, hfil]
        rfl
      have hy : sanitizePipeline raw = _sanitize_sql (pyStrip raw) := by
        rw [sanitizePipeline, hz]
      exfalso
      rw [hy] at hacc
      have hm := accepted_matches _ hacc
      have hstr := san_stripped (pyStrip raw)
      have hsel : selectChars <+: (_sanitize_sql (pyStrip raw)).map pyToLower :=
        select_pre_of_matches _ hstr hm
      obtain ⟨w, hw1, hw2⟩ := select_pullback _ hsel.isInfix
      have hwy : w <:+: pyStrip raw := hw1.trans (san_sub (pyStrip raw))
      obtain ⟨p, hp1, hp2⟩ :=
        infix_pySplit (pyStrip raw) w hwy (select_ne_nil w hw2) (select_no_tick w hw2)
      have hpsel : containsSeq selectChars (p.map pyToLower) = true := by
        rw [containsSeq_iff]
        rw [← hw2]
        exact hp2.map pyToLower
      have hmem : p ∈ (pySplit ticks (pyStrip raw)).filter
          (fun p => containsSeq selectChars (p.map pyToLower)) :=
        List.mem_filter.mpr ⟨hp1, hpsel⟩
      rw [hfil] at hmem
      cases hmem
    | cons c cs =>
      have hz : fenceSelect (pyStrip raw) = pyStrip c := by
        unfold fenceSelect
        rw [hct, hfil]
        rfl
      have hcmem : c ∈ pySplit ticks (pyStrip raw) := by
        have : c ∈ (pySplit ticks (pyStrip raw)).filter
            (fun p => containsSeq selectChars (p.map pyToLower)) := by
          rw [hfil]
          exact List.mem_cons_self c cs
        exact (List.mem_filter.mp this).1
      have hnc : ¬ ticks <:+: c := pySplit_no_ticks (pyStrip raw) c hcmem
      intro hin
      have hsub : sanitizePipeline raw <:+: c := by
        rw [sanitizePipeline, hz]
        exact (san_sub _).trans (pyStrip_sub c)
      exact hnc (hin.trans hsub)
  · have hct2 : containsSeq ticks (pyStrip raw) = false := by
      cases hb : containsSeq ticks (pyStrip raw)
      · rfl
      · exact absurd hb hct
    have hz := fenceSelect_eq_of_no_ticks (pyStrip raw) hct2
    have hnr : ¬ ticks <:+: pyStrip raw := by
      intro hin
      rw [← containsSeq_iff] at hin
      rw [hct2] at hin
      cases hin
    intro hin
    apply hnr
    apply hin.trans
    rw [sanitizePipeline, hz]
    exact san_sub (pyStrip raw)

theorem contains_eq_false_of_not_mem {c : Char} {l : List Char} (h : c ∉ l) :
    l.contains c = false := by
  cases hb : l.contains c
  · rfl
  · exact absurd (List.elem_iff.mp hb) h

theorem pipeline_idem_of_accepted (raw : List Char)
    (hacc : guardDecision (sanitizePipeline raw) = GuardDecision.accepted) :
    sanitizePipeline (sanitizePipeline raw) = sanitizePipeline raw := by
  have hnt : ¬ ticks <:+: sanitizePipeline raw := pipeline_no_ticks raw hacc
  have hm : matchesSelect (sanitizePipeline raw) = true := accepted_matches _ hacc
  have hstr : pyStrip (sanitizePipeline raw) = sanitizePipeline raw := by
    rw [sanitizePipeline]
    exact san_stripped _
  have hsemi : ';' ∉ sanitizePipeline raw := by
    rw [sanitizePipeline]
    exact san_no_semi _
  generalize hgen : sanitizePipeline raw = y at hnt hm hstr hsemi ⊢
  have hls : pyLStrip y = y := lstrip_of_strip hstr
  have hsel : selectChars <+: y.map pyToLower := select_pre_of_matches y hstr hm
  have hct : containsSeq ticks y = false := by
    cases hb : containsSeq ticks y
    · rfl
    · exact absurd (containsSeq_iff ticks y |>.mp hb) hnt
  have hfz : fenceSelect y = y := fenceSelect_eq_of_no_ticks y hct
  have htp : ticks.isPrefixOf y = false := by
    cases hb : ticks.isPrefixOf y
    · rfl
    · exact absurd (List.isPrefixOf_iff_prefix.mp hb).isInfix hnt
  have htake : (y.take 3).map pyToLower = ['s', 'e', 'l'] := by
    obtain ⟨r, hr⟩ := hsel
    rw [List.map_take, ← hr]
    rfl
  have hlab : stripLabel y = y := by
    show (if ((y.dropWhile pyIsSpace).take 3).map pyToLower = sqlChars
        then _ else y) = y
    rw [show y.dropWhile pyIsSpace = y from hls]
    rw [if_neg (by rw [htake]; decide)]
  have hsc : semiCut y = y := by
    unfold semiCut
    rw [contains_eq_false_of_not_mem hsemi]
    rfl
  calc sanitizePipeline y
      = _sanitize_sql (fenceSelect (pyStrip y)) := rfl
    _ = _sanitize_sql y := by rw [hstr, hfz]
    _ = semiCut (pyStrip (stripLabel y)) := by
        rw [san_eq, hstr, htp]
        rfl
    _ = y := by rw [hlab, hstr, hsc]

/-! ## Lemmas about the retry loop -/

theorem retryRun_zero (stub : Nat → Except OpenAIExc String) (i : Nat) :
    retryRun stub i 0 = (stub i, 1) := rfl

theorem retryRun_one (stub : Nat → Except OpenAIExc String) (i : Nat) :
    retryRun stub i 1 = (stub i, 1) := rfl

theorem retryRun_ok (stub : Nat → Except OpenAIExc String) (i b : Nat) (v : String)
    (h : stub i = Except.ok v) : retryRun stub i b = (Except.ok v, 1) := by
  match b with
  | 0 => rw [retryRun_zero, h]
  | 1 => rw [retryRun_one, h]
  | Nat.succ (Nat.succ b2) =>
    rw [retryRun, h]

theorem retryRun_retry (stub : Nat → Except OpenAIExc String) (i b2 : Nat)
    (e : OpenAIExc) (h : stub i = Except.error e) (hr : retryable e = true) :
    retryRun stub i (Nat.succ (Nat.succ b2)) =
      ((retryRun stub (i + 1) (Nat.succ b2)).1,
       (retryRun stub (i + 1) (Nat.succ b2)).2 + 1) := by
  rw [retryRun, h]
  show (if retryable e = true then
      ((retryRun stub (i + 1) (Nat.succ b2)).1, (retryRun stub (i + 1) (Nat.succ b2)).2 + 1)
    else (Except.error e, 1)) = _
  rw [if_pos hr]

theorem retryRun_fatal (stub : Nat → Except OpenAIExc String) (i b : Nat)
    (e : OpenAIExc) (h : stub i = Except.error e) (hr : retryable e = false) :
    retryRun stub i b = (Except.error e, 1) := by
  match b with
  | 0 => rw [retryRun_zero, h]
  | 1 => rw [retryRun_one, h]
  | Nat.succ (Nat.succ b2) =>
    rw [retryRun, h]
    show (if retryable e = true then
        ((retryRun stub (i + 1) (Nat.succ b2)).1, (retryRun stub (i + 1) (Nat.succ b2)).2 + 1)
      else (Except.error e, 1)) = _
    rw [if_neg (by rw [hr]; decide)]

theorem retryRun_ok_after (stub : Nat → Except OpenAIExc String)
    (es : Nat → OpenAIExc) (v : String) :
    ∀ (k i b : Nat),
      (∀ j, j < k → stub (i + j) = Except.error (es (i + j)) ∧ retryable (es (i + j)) = true) →
      stub (i + k) = Except.ok v → k < b →
      retryRun stub i b = (Except.ok v, k + 1) := by
  intro k
  induction k with
  | zero =>
    intro i b hfail hok hb
    rw [Nat.add_zero] at hok
    exact retryRun_ok stub i b v hok
  | succ k ih =>
    intro i b hfail hok hb
    match b, hb with
    | Nat.succ (Nat.succ b2), _ =>
      have h0 := hfail 0 (Nat.succ_pos k)
      rw [Nat.add_zero] at h0
      rw [retryRun_retry stub i b2 (es i) h0.1 h0.2]
      have hrec : retryRun stub (i + 1) (Nat.succ b2) = (Except.ok v, k + 1) := by
        apply ih (i + 1) (Nat.succ b2)
        · intro j hj
          have := hfail (j + 1) (by omega)
          rw [show i + (j + 1) = i + 1 + j from by omega] at this
          exact this
        · rw [show i + 1 + k = i + (k + 1) from by omega]
          exact hok
        · omega
      rw [hrec]

theorem retryRun_all_fail (stub : Nat → Except OpenAIExc String)
    (es : Nat → OpenAIExc) :
    ∀ (b i : Nat), 1 ≤ b →
      (∀ j, j < b → stub (i + j) = Except.error (es (i + j)) ∧ retryable (es (i + j)) = true) →
      retryRun stub i b = (Except.error (es (i + (b - 1))), b) := by
  intro b
  induction b with
  | zero => intro i h; omega
  | succ b2 ih =>
    intro i hb hfail
    match b2, hfail with
    | 0, hfail =>
      have h0 := hfail 0 (by omega)
      rw [Nat.add_zero] at h0
      rw [retryRun_one, h0.1]
      simp
    | Nat.succ b3, hfail =>
      have h0 := hfail 0 (by omega)
      rw [Nat.add_zero] at h0
      rw [retryRun_retry stub i b3 (es i) h0.1 h0.2]
      have hrec : retryRun stub (i + 1) (Nat.succ b3) =
          (Except.error (es (i + 1 + (Nat.succ b3 - 1))), Nat.succ b3) := by
        apply ih (i + 1) (by omega)
        intro j hj
        have := hfail (j + 1) (by omega)
        rw [show i + (j + 1) = i + 1 + j from by omega] at this
        exact this
      rw [hrec]
      have harith : i + 1 + (Nat.succ b3 - 1) = i + (Nat.succ (Nat.succ b3) - 1) := by omega
      rw [harith]

theorem retryRun_attempts_le (stub : Nat → Except OpenAIExc String) :
    ∀ (b i : Nat), 1 ≤ b → (retryRun stub i b).2 ≤ b := by
  intro b
  induction b with
  | zero => intro i h; omega
  | succ b2 ih =>
    intro i _
    match b2 with
    | 0 => rw [retryRun_one]
    | Nat.succ b3 =>
      cases hs : stub i with
      | ok v =>
        rw [retryRun_ok stub i _ v hs]
        omega
      | error e =>
        cases hr : retryable e with
        | false =>
          rw [retryRun_fatal stub i _ e hs hr]
          omega
        | true =>
          rw [retryRun_retry stub i b3 e hs hr]
          have := ih (i + 1) (by omega)
          simp only []
          omega

/-! ## Lemmas about `complete` -/

theorem complete_mock (cfg : Config) (st : GatewayState) (u : String)
    (sys : Option String) (t : ℚ) (mr : Nat) (ex : Option (List ChatMessage))
    (stub : Nat → Except OpenAIExc String) (hmock : cfg.USE_MOCK = true) :
    complete cfg st u sys t mr ex stub =
      { result := Except.ok _MOCK_TS_SNIPPET, finalState := st, attempts := 0,
        constructedClient := false, requestClient := none, requestMessages := [] } := by
  unfold complete
  rw [if_pos hmock]

theorem complete_cached (cfg : Config) (st : GatewayState) (c : OpenAIClient)
    (u : String) (sys : Option String) (t : ℚ) (mr : Nat)
    (ex : Option (List ChatMessage)) (stub : Nat → Except OpenAIExc String)
    (hmock : cfg.USE_MOCK = false) (hc : st._client = some c) :
    complete cfg st u sys t mr ex stub =
      { result := (match (retryRun stub 0 (mr + 1)).1 with
          | Except.ok v => Except.ok v
          | Except.error e => Except.error (CompleteError.providerError e)),
        finalState := st, attempts := (retryRun stub 0 (mr + 1)).2,
        constructedClient := false, requestClient := some (with_options c t),
        requestMessages := buildMessages sys ex u } := by
  unfold complete
  rw [if_neg (by rw [hmock]; decide), hc]

/-! ## Lemmas about `buildMessages` -/

theorem buildMessages_full (s : String) (es : List ChatMessage) (u : String)
    (hs : s ≠ "") (hes : es ≠ []) :
    buildMessages (some s) (some es) u =
      ChatMessage.mk "system" s :: (es ++ [ChatMessage.mk "user" u]) := by
  simp [buildMessages, hs, hes]

theorem getLast_append_singleton {α : Type} (l : List α) (m : α) :
    (l ++ [m]).getLast? = some m := by
  simp

theorem buildMessages_getLast (sys : Option String) (ex : Option (List ChatMessage))
    (u : String) :
    (buildMessages sys ex u).getLast? = some (ChatMessage.mk "user" u) :=
  getLast_append_singleton _ _

/-! ## Claim theorems -/

/-- C1: the spec claims the denylist matches whole words only, so that
`SELECT created_at FROM sales` is accepted. The code instead tests plain
substring containment: the cleaned text is exactly the input, the SELECT
test passes, but `create` matches inside `created_at`, so the guard rejects
the statement with the denylist rejection. This theorem evaluates the code
at the claim's own example and shows the rejection, refuting the claim and
exhibiting the divergence between spec and code. -/
theorem c1_substring_denylist_rejects_created_at :
    sanitizePipeline ("SELECT created_at FROM sales".toList) =
      "SELECT created_at FROM sales".toList ∧
    matchesSelect ("SELECT created_at FROM sales".toList) = true ∧
    denyHit ("SELECT created_at FROM sales".toList) = true ∧
    guardDecision (sanitizePipeline ("SELECT created_at FROM sales".toList)) =
      GuardDecision.denylisted := by
  refine ⟨by decide, by decide, by decide, by decide⟩

/-- C2 counterexample: with `\n` read as the literal two-character escape,
sanitizing the fenced input does not produce `SELECT 1` and the result is
rejected, on the endpoint pipeline as well as on `_sanitize_sql` alone;
moreover even with real newline characters the endpoint pipeline yields
`sql` + newline + `SELECT 1` (the fenced-block pre-split keeps the language
tag), not `SELECT 1`. -/
theorem c2_fence_literal_escape_counterexample :
    sanitizePipeline ("```sql\\nSELECT 1\\n```".toList) = "sql\\nSELECT 1\\n".toList ∧
    ¬ sanitizePipeline ("```sql\\nSELECT 1\\n```".toList) = "SELECT 1".toList ∧
    guardDecision (sanitizePipeline ("```sql\\nSELECT 1\\n```".toList)) =
      GuardDecision.notSelect ∧
    _sanitize_sql ("```sql\\nSELECT 1\\n```".toList) = "\\nSELECT 1\\n".toList ∧
    ¬ _sanitize_sql ("```sql\\nSELECT 1\\n```".toList) = "SELECT 1".toList ∧
    guardDecision (_sanitize_sql ("```sql\\nSELECT 1\\n```".toList)) =
      GuardDecision.notSelect ∧
    sanitizePipeline ("```sql\nSELECT 1\n```".toList) = "sql\nSELECT 1".toList := by
  refine ⟨by decide, by decide, by decide, by decide, by decide, by decide, by decide⟩

/-- C2 (amended): applying `_sanitize_sql` to the fenced input in which `\n`
is an actual newline character strips the fence delimiters and the `sql`
language tag, producing the cleaned text `SELECT 1`, which the guard checks
accept. -/
theorem c2_amended_fence_stripping :
    _sanitize_sql ("```sql\nSELECT 1\n```".toList) = "SELECT 1".toList ∧
    guardDecision ("SELECT 1".toList) = GuardDecision.accepted := by
  refine ⟨by decide, by decide⟩

/-- C3: when the text reaching the statement-terminator step contains `;`,
`_sanitize_sql` keeps only the stripped text before the first `;`; no
semicolon ever survives sanitization, so the guard checks run on the
truncated text; in particular `SELECT 1; DROP TABLE sales;` cleans to
`SELECT 1` and is accepted even though `DROP` follows the first `;`. -/
theorem c3_semicolon_truncation :
    (∀ s : List Char, s.contains ';' = true →
      semiCut s = pyStrip (s.takeWhile (fun c => c != ';'))) ∧
    (∀ raw : List Char, ';' ∉ _sanitize_sql raw) ∧
    sanitizePipeline ("SELECT 1; DROP TABLE sales;".toList) = "SELECT 1".toList ∧
    guardDecision (sanitizePipeline ("SELECT 1; DROP TABLE sales;".toList)) =
      GuardDecision.accepted := by
  refine ⟨?_, san_no_semi, by decide, by decide⟩
  intro s h
  unfold semiCut
  rw [if_pos h]

/-- C3 witness: the truncation equation applied at a concrete input with a
semicolon, and the no-semicolon consequence at a concrete input. -/
theorem c3_semicolon_truncation_witness :
    ("SELECT 1; DROP".toList).contains ';' = true ∧
    semiCut ("SELECT 1; DROP".toList) =
      pyStrip (("SELECT 1; DROP".toList).takeWhile (fun c => c != ';')) ∧
    ';' ∉ _sanitize_sql ("SELECT 1; DROP".toList) :=
  ⟨by decide, c3_semicolon_truncation.1 _ (by decide),
   c3_semicolon_truncation.2.1 _⟩

/-- C4: `complete` makes at most `1 + max_retries` provider attempts; when
the stub fails transiently on the first `k` attempts (`k ≤ max_retries`)
and then succeeds, `complete` returns the success value after exactly
`k + 1` attempts; when every allowed attempt fails transiently, the final
exception is re-raised unchanged to the caller after exactly
`1 + max_retries` attempts. -/
theorem c4_retry_budget :
    ∀ (cfg : Config) (st : GatewayState) (c : OpenAIClient) (u : String)
      (sys : Option String) (t : ℚ) (mr : Nat) (ex : Option (List ChatMessage))
      (stub : Nat → Except OpenAIExc String) (es : Nat → OpenAIExc)
      (k : Nat) (v : String),
      cfg.USE_MOCK = false → st._client = some c →
      ((complete cfg st u sys t mr ex stub).attempts ≤ mr + 1) ∧
      ((∀ j, j < k → stub j = Except.error (es j) ∧ retryable (es j) = true) →
        stub k = Except.ok v → k ≤ mr →
        (complete cfg st u sys t mr ex stub).result = Except.ok v ∧
        (complete cfg st u sys t mr ex stub).attempts = k + 1) ∧
      ((∀ j, j ≤ mr → stub j = Except.error (es j) ∧ retryable (es j) = true) →
        (complete cfg st u sys t mr ex stub).result =
          Except.error (CompleteError.providerError (es mr)) ∧
        (complete cfg st u sys t mr ex stub).attempts = mr + 1) := by
  intro cfg st c u sys t mr ex stub es k v hmock hc
  rw [complete_cached cfg st c u sys t mr ex stub hmock hc]
  refine ⟨?_, ?_, ?_⟩
  · exact retryRun_attempts_le stub (mr + 1) 0 (by omega)
  · intro hfail hok hk
    have hrun : retryRun stub 0 (mr + 1) = (Except.ok v, k + 1) := by
      apply retryRun_ok_after stub es v k 0 (mr + 1)
      · intro j hj
        simpa using hfail j hj
      · simpa using hok
      · omega
    rw [hrun]
    exact ⟨rfl, rfl⟩
  · intro hfail
    have hrun : retryRun stub 0 (mr + 1) =
        (Except.error (es (0 + (mr + 1 - 1))), mr + 1) := by
      apply retryRun_all_fail stub es (mr + 1) 0 (by omega)
      intro j hj
      simpa using hfail j (by omega)
    have harith : 0 + (mr + 1 - 1) = mr := by omega
    rw [harith] at hrun
    rw [hrun]
    exact ⟨rfl, rfl⟩

/-- C4 witness: with `max_retries = 2`, a stub failing transiently twice
then succeeding yields the success value after exactly three attempts, and
a stub always failing transiently raises the error after exactly three
attempts. -/
theorem c4_retry_budget_witness :
    (complete (Config.mk false (some "sk-test") none)
        (GatewayState.mk (some (OpenAIClient.mk "sk-test" none none)))
        "u" none 30 2 none
        (fun i => if i < 2 then Except.error OpenAIExc.APITimeoutError
                  else Except.ok "SELECT 1")).result = Except.ok "SELECT 1" ∧
    (complete (Config.mk false (some "sk-test") none)
        (GatewayState.mk (some (OpenAIClient.mk "sk-test" none none)))
        "u" none 30 2 none
        (fun i => if i < 2 then Except.error OpenAIExc.APITimeoutError
                  else Except.ok "SELECT 1")).attempts = 2 + 1 ∧
    (complete (Config.mk false (some "sk-test") none)
        (GatewayState.mk (some (OpenAIClient.mk "sk-test" none none)))
        "u" none 30 2 none
        (fun _ => Except.error OpenAIExc.RateLimitError)).result =
      Except.error (CompleteError.providerError OpenAIExc.RateLimitError) ∧
    (complete (Config.mk false (some "sk-test") none)
        (GatewayState.mk (some (OpenAIClient.mk "sk-test" none none)))
        "u" none 30 2 none
        (fun _ => Except.error OpenAIExc.RateLimitError)).attempts = 2 + 1 := by
  have h1 := c4_retry_budget (Config.mk false (some "sk-test") none)
    (GatewayState.mk (some (OpenAIClient.mk "sk-test" none none)))
    (OpenAIClient.mk "sk-test" none none) "u" none 30 2 none
    (fun i => if i < 2 then Except.error OpenAIExc.APITimeoutError
              else Except.ok "SELECT 1")
    (fun _ => OpenAIExc.APITimeoutError) 2 "SELECT 1" rfl rfl
  have h2 := c4_retry_budget (Config.mk false (some "sk-test") none)
    (GatewayState.mk (some (OpenAIClient.mk "sk-test" none none)))
    (OpenAIClient.mk "sk-test" none none) "u" none 30 2 none
    (fun _ => Except.error OpenAIExc.RateLimitError)
    (fun _ => OpenAIExc.RateLimitError) 0 "unused" rfl rfl
  have ha := h1.2.1 (by decide) (by decide) (by decide)
  have hb := h2.2.2 (by decide)
  exact ⟨ha.1, ha.2, hb.1, hb.2⟩

/-- C5: non-transient provider exceptions are never retried: an attempt
raising an exception outside the transient tuple, in particular the
authentication failure, makes `complete` fail immediately with that same
exception after exactly one attempt, whatever `max_retries` is. -/
theorem c5_nontransient_not_retried :
    retryable OpenAIExc.AuthenticationError = false ∧
    ∀ (cfg : Config) (st : GatewayState) (c : OpenAIClient) (u : String)
      (sys : Option String) (t : ℚ) (mr : Nat) (ex : Option (List ChatMessage))
      (stub : Nat → Except OpenAIExc String) (e : OpenAIExc),
      cfg.USE_MOCK = false → st._client = some c →
      retryable e = false → stub 0 = Except.error e →
      (complete cfg st u sys t mr ex stub).result =
        Except.error (CompleteError.providerError e) ∧
      (complete cfg st u sys t mr ex stub).attempts = 1 := by
  refine ⟨by decide, ?_⟩
  intro cfg st c u sys t mr ex stub e hmock hc hr hstub
  rw [complete_cached cfg st c u sys t mr ex stub hmock hc]
  have hrun := retryRun_fatal stub 0 (mr + 1) e hstub hr
  rw [hrun]
  exact ⟨rfl, rfl⟩

/-- C5 witness: an authentication failure on the first attempt, with
`max_retries = 5`, surfaces unchanged after exactly one attempt. -/
theorem c5_nontransient_not_retried_witness :
    (complete (Config.mk false (some "sk-test") none)
        (GatewayState.mk (some (OpenAIClient.mk "sk-test" none none)))
        "u" none 30 5 none
        (fun _ => Except.error OpenAIExc.AuthenticationError)).result =
      Except.error (CompleteError.providerError OpenAIExc.AuthenticationError) ∧
    (complete (Config.mk false (some "sk-test") none)
        (GatewayState.mk (some (OpenAIClient.mk "sk-test" none none)))
        "u" none 30 5 none
        (fun _ => Except.error OpenAIExc.AuthenticationError)).attempts = 1 :=
  c5_nontransient_not_retried.2 (Config.mk false (some "sk-test") none)
    (GatewayState.mk (some (OpenAIClient.mk "sk-test" none none)))
    (OpenAIClient.mk "sk-test" none none) "u" none 30 5 none
    (fun _ => Except.error OpenAIExc.AuthenticationError)
    OpenAIExc.AuthenticationError rfl rfl (by decide) rfl

/-- C6: with offline mock mode enabled, every `complete` call returns the
fixed text `_MOCK_TS_SNIPPET`, makes zero provider requests, constructs no
client, leaves the cache untouched, builds no request handle, and needs no
credential (the configuration is arbitrary, including one with no API key);
any two mock-mode calls return equal results. -/
theorem c6_offline_mock_deterministic :
    ∀ (cfg cfg2 : Config) (st st2 : GatewayState) (u u2 : String)
      (sys sys2 : Option String) (t t2 : ℚ) (mr mr2 : Nat)
      (ex ex2 : Option (List ChatMessage))
      (stub stub2 : Nat → Except OpenAIExc String),
      cfg.USE_MOCK = true → cfg2.USE_MOCK = true →
      complete cfg st u sys t mr ex stub =
        { result := Except.ok _MOCK_TS_SNIPPET, finalState := st, attempts := 0,
          constructedClient := false, requestClient := none,
          requestMessages := [] } ∧
      (complete cfg st u sys t mr ex stub).result =
        (complete cfg2 st2 u2 sys2 t2 mr2 ex2 stub2).result := by
  intro cfg cfg2 st st2 u u2 sys sys2 t t2 mr mr2 ex ex2 stub stub2 h1 h2
  constructor
  · exact complete_mock cfg st u sys t mr ex stub h1
  · rw [complete_mock cfg st u sys t mr ex stub h1,
        complete_mock cfg2 st2 u2 sys2 t2 mr2 ex2 stub2 h2]

/-- C6 witness: two mock-mode calls with no credential configured, distinct
prompts, options and stubs, both return the fixed text with zero attempts,
no constructed client and an unchanged cache. -/
theorem c6_offline_mock_deterministic_witness :
    complete (Config.mk true none none) (GatewayState.mk none) "Generate a Playwright test"
        none 30 2 none (fun _ => Except.error OpenAIExc.APIConnectionError) =
      { result := Except.ok _MOCK_TS_SNIPPET, finalState := GatewayState.mk none,
        attempts := 0, constructedClient := false, requestClient := none,
        requestMessages := [] } ∧
    (complete (Config.mk true none none) (GatewayState.mk none) "Generate a Playwright test"
        none 30 2 none (fun _ => Except.error OpenAIExc.APIConnectionError)).result =
      (complete (Config.mk true none none) (GatewayState.mk none) "another prompt"
        (some "sys") 7 9 none (fun _ => Except.ok "other")).result :=
  c6_offline_mock_deterministic (Config.mk true none none) (Config.mk true none none)
    (GatewayState.mk none) (GatewayState.mk none) "Generate a Playwright test"
    "another prompt" none (some "sys") 30 7 2 9 none none
    (fun _ => Except.error OpenAIExc.APIConnectionError) (fun _ => Except.ok "other")
    rfl rfl

/-- C7: sanitization is idempotent on accepted inputs: for every raw model
output that the guard accepts after cleaning, running the cleaning pipeline
again on the cleaned text returns the cleaned text unchanged. -/
theorem c7_sanitize_idempotent_on_accepted :
    ∀ raw : List Char,
      guardDecision (sanitizePipeline raw) = GuardDecision.accepted →
      sanitizePipeline (sanitizePipeline raw) = sanitizePipeline raw :=
  pipeline_idem_of_accepted

/-- C7 witness: idempotence applied at an accepted concrete input. -/
theorem c7_sanitize_idempotent_witness :
    guardDecision (sanitizePipeline ("SELECT qty FROM sales".toList)) =
      GuardDecision.accepted ∧
    sanitizePipeline (sanitizePipeline ("SELECT qty FROM sales".toList)) =
      sanitizePipeline ("SELECT qty FROM sales".toList) :=
  ⟨by decide, c7_sanitize_idempotent_on_accepted _ (by decide)⟩

/-- C8: the message sequence assembled for the provider preserves order:
with a truthy system prompt and nonempty extras the list is exactly the
system message, then the extras in their given order, then the user message;
the user message is always last; and a non-mock `complete` call with a
cached client sends exactly this assembled list. -/
theorem c8_message_order :
    ∀ (s : String) (es : List ChatMessage) (u : String) (sys : Option String)
      (ex : Option (List ChatMessage)) (cfg : Config) (st : GatewayState)
      (c : OpenAIClient) (t : ℚ) (mr : Nat) (stub : Nat → Except OpenAIExc String),
      (s ≠ "" → es ≠ [] →
        buildMessages (some s) (some es) u =
          ChatMessage.mk "system" s :: (es ++ [ChatMessage.mk "user" u])) ∧
      (buildMessages sys ex u).getLast? = some (ChatMessage.mk "user" u) ∧
      (cfg.USE_MOCK = false → st._client = some c →
        (complete cfg st u sys t mr ex stub).requestMessages =
          buildMessages sys ex u) := by
  intro s es u sys ex cfg st c t mr stub
  refine ⟨buildMessages_full s es u, buildMessages_getLast sys ex u, ?_⟩
  intro hmock hc
  rw [complete_cached cfg st c u sys t mr ex stub hmock hc]

/-- C8 witness: the assembled list at concrete arguments, and the list a
concrete non-mock call sends. -/
theorem c8_message_order_witness :
    buildMessages (some "persona") (some [ChatMessage.mk "assistant" "ok"]) "ask" =
      ChatMessage.mk "system" "persona" ::
        ([ChatMessage.mk "assistant" "ok"] ++ [ChatMessage.mk "user" "ask"]) ∧
    (buildMessages (some "persona") (some [ChatMessage.mk "assistant" "ok"]) "ask").getLast? =
      some (ChatMessage.mk "user" "ask") ∧
    (complete (Config.mk false (some "sk-test") none)
        (GatewayState.mk (some (OpenAIClient.mk "sk-test" none none)))
        "ask" (some "persona") 30 2 (some [ChatMessage.mk "assistant" "ok"])
        (fun _ => Except.ok "SELECT 1")).requestMessages =
      buildMessages (some "persona") (some [ChatMessage.mk "assistant" "ok"]) "ask" := by
  have h := c8_message_order "persona" [ChatMessage.mk "assistant" "ok"] "ask"
    (some "persona") (some [ChatMessage.mk "assistant" "ok"])
    (Config.mk false (some "sk-test") none)
    (GatewayState.mk (some (OpenAIClient.mk "sk-test" none none)))
    (OpenAIClient.mk "sk-test" none none) 30 2 (fun _ => Except.ok "SELECT 1")
  exact ⟨h.1 (by decide) (by decide), h.2.1, h.2.2 rfl rfl⟩

/-- C9: a per-call timeout override is applied to a request-scoped derived
copy of the cached client handle: after a non-mock call with any timeout,
the cached handle in the module state is unchanged (same key, base URL and
default timeout), while the request handle is the derived copy equal to the
cached one except for its timeout, which carries the override. -/
theorem c9_timeout_override_pure :
    ∀ (cfg : Config) (st : GatewayState) (c : OpenAIClient) (u : String)
      (sys : Option String) (t : ℚ) (mr : Nat) (ex : Option (List ChatMessage))
      (stub : Nat → Except OpenAIExc String),
      cfg.USE_MOCK = false → st._client = some c →
      (complete cfg st u sys t mr ex stub).finalState = st ∧
      (complete cfg st u sys t mr ex stub).finalState._client = some c ∧
      (complete cfg st u sys t mr ex stub).requestClient = some (with_options c t) ∧
      (with_options c t).timeout = some t ∧
      (with_options c t).api_key = c.api_key ∧
      (with_options c t).base_url = c.base_url := by
  intro cfg st c u sys t mr ex stub hmock hc
  rw [complete_cached cfg st c u sys t mr ex stub hmock hc]
  exact ⟨rfl, hc, rfl, rfl, rfl, rfl⟩

/-- C9 witness: a call overriding the timeout to 12 leaves the cached
handle's configuration unchanged and uses a derived request handle with the
override applied. -/
theorem c9_timeout_override_pure_witness :
    (complete (Config.mk false (some "sk-test") none)
        (GatewayState.mk (some (OpenAIClient.mk "sk-test" none none)))
        "u" none 12 2 none (fun _ => Except.ok "SELECT 1")).finalState =
      GatewayState.mk (some (OpenAIClient.mk "sk-test" none none)) ∧
    (complete (Config.mk false (some "sk-test") none)
        (GatewayState.mk (some (OpenAIClient.mk "sk-test" none none)))
        "u" none 12 2 none (fun _ => Except.ok "SELECT 1")).requestClient =
      some (with_options (OpenAIClient.mk "sk-test" none none) 12) ∧
    (with_options (OpenAIClient.mk "sk-test" none none) 12).timeout = some 12 := by
  have h := c9_timeout_override_pure (Config.mk false (some "sk-test") none)
    (GatewayState.mk (some (OpenAIClient.mk "sk-test" none none)))
    (OpenAIClient.mk "sk-test" none none) "u" none 12 2 none
    (fun _ => Except.ok "SELECT 1") rfl rfl
  exact ⟨h.1, h.2.2.1, h.2.2.2.1⟩

set_option maxRecDepth 8000 in
/-- C10: with offline mock mode enabled, for every question the endpoint's
model call returns the fixed Playwright TypeScript snippet, whose cleaned
form does not begin with the keyword `select`, so the guard rejects it with
the not-a-select rejection; no request succeeds through the SQL path while
mock mode is on. -/
theorem c10_mock_mode_query_rejected :
    ∀ (question : String) (cfg : Config) (st : GatewayState) (t : ℚ) (mr : Nat)
      (stub : Nat → Except OpenAIExc String),
      cfg.USE_MOCK = true →
      (complete cfg st (queryUserPrompt question) (some SQL_SYS) t mr none stub).result =
        Except.ok _MOCK_TS_SNIPPET ∧
      queryGuard _MOCK_TS_SNIPPET = GuardDecision.notSelect := by
  intro question cfg st t mr stub h
  constructor
  · rw [complete_mock cfg st (queryUserPrompt question) (some SQL_SYS) t mr none stub h]
  · decide

/-- C10 witness: the rejection at a concrete question in a concrete
mock-mode configuration with no credential. -/
theorem c10_mock_mode_query_rejected_witness :
    (complete (Config.mk true none none) (GatewayState.mk none)
        (queryUserPrompt "Total revenue by sku for February 2025") (some SQL_SYS)
        30 2 none (fun _ => Except.error OpenAIExc.APIConnectionError)).result =
      Except.ok _MOCK_TS_SNIPPET ∧
    queryGuard _MOCK_TS_SNIPPET = GuardDecision.notSelect :=
  c10_mock_mode_query_rejected "Total revenue by sku for February 2025"
    (Config.mk true none none) (GatewayState.mk none) 30 2
    (fun _ => Except.error OpenAIExc.APIConnectionError) rfl
